import Mathlib

/-!
Shallow embedding of `src/server.js` (qr-order): a restaurant ordering
backend with a basic-auth admin gate, menu seeding and an order lifecycle.
JavaScript dynamic values arriving in JSON request bodies are modelled by
`JVal`; JS numbers by `JSNum` (a rational or NaN — the handlers only coerce
and compare numbers, never combine them arithmetically, so rationals are an
exact model of the float values involved).  Mongo collections are modelled
as Lean lists of documents; each route handler becomes a pure function from
(collection, request) to (response, collection).
-/

namespace QrOrder

/-- JS numbers as used by the server: a finite value or NaN.
(The handlers never add or multiply numbers, so ℚ is exact here.) -/
inductive JSNum where
  | nan
  | val (q : ℚ)
deriving DecidableEq, Repr

/-- A JS/JSON primitive value, as can appear in a request-body field.
(Nested arrays/objects in a field position are not modelled; the handlers
under study only destructure one level.) -/
inductive JVal where
  | jundef
  | jnull
  | jbool (b : Bool)
  | jnum (n : JSNum)
  | jstr (s : String)
deriving DecidableEq, Repr

/-- JS truthiness: `undefined`, `null`, `false`, `0`, `NaN` and `""` are falsy. -/
def truthy : JVal → Bool
  | .jundef => false
  | .jnull => false
  | .jbool b => b
  | .jnum .nan => false
  | .jnum (.val q) => q != 0
  | .jstr s => s != ""

/-- JS `a || b`. -/
def jsOr (a b : JVal) : JVal := if truthy a then a else b

/-- JS whitespace for `trim` (the ASCII part; the handlers only see these). -/
def isJsSpace (c : Char) : Bool :=
  c = ' ' || c = '\t' || c = '\n' || c = '\r' || c = '\x0b' || c = '\x0c'

def trimChars (cs : List Char) : List Char :=
  ((cs.dropWhile isJsSpace).reverse.dropWhile isJsSpace).reverse

/-- JS `String.prototype.trim`. -/
def jsTrim (s : String) : String := ⟨trimChars s.data⟩

def digitsVal (cs : List Char) : ℕ :=
  cs.foldl (fun a c => a * 10 + (c.toNat - 48)) 0

/-- Parse an unsigned decimal literal (`123`, `123.45`, `.5`, `5.`);
other shapes (exponents, hex, `Infinity`) are out of the model's scope
and map to `none` (→ NaN). -/
def parseDec (cs : List Char) : Option ℚ :=
  let intPart := cs.takeWhile Char.isDigit
  match cs.dropWhile Char.isDigit with
  | [] => if intPart.isEmpty then none else some (digitsVal intPart)
  | '.' :: frac =>
      if frac.all Char.isDigit && !(intPart.isEmpty && frac.isEmpty) then
        some ((digitsVal intPart : ℚ) + (digitsVal frac : ℚ) / (10 ^ frac.length))
      else none
  | _ => none

/-- JS `Number(string)`: empty/whitespace-only → 0, decimal literal → its
value, otherwise NaN. -/
def jsStringToNum (s : String) : JSNum :=
  match trimChars s.data with
  | [] => .val 0
  | '-' :: cs => match parseDec cs with | some q => .val (-q) | none => .nan
  | '+' :: cs => match parseDec cs with | some q => .val q | none => .nan
  | cs => match parseDec cs with | some q => .val q | none => .nan

/-- JS `Number(v)` coercion. -/
def jsToNumber : JVal → JSNum
  | .jundef => .nan
  | .jnull => .val 0
  | .jbool b => .val (if b then 1 else 0)
  | .jnum n => n
  | .jstr s => jsStringToNum s

/-- Rendering of a JS number as a string.  Only the integer case is
rendered faithfully to JS; no handler behaviour under study depends on the
rendering of non-integer numbers. -/
def jsNumToString : JSNum → String
  | .nan => "NaN"
  | .val q => if q.den = 1 then toString q.num else toString q

/-- JS `String(v)` coercion. -/
def jsToString : JVal → String
  | .jundef => "undefined"
  | .jnull => "null"
  | .jbool b => if b then "true" else "false"
  | .jnum n => jsNumToString n
  | .jstr s => s

/-- JS `str.split(sep)` for a one-character separator, on char lists:
`"" → [""]`, `"a:b" → ["a","b"]`, `":" → ["", ""]`. -/
def jsSplitChar (c : Char) : List Char → List (List Char)
  | [] => [[]]
  | x :: xs =>
    if x = c then [] :: jsSplitChar c xs
    else
      match jsSplitChar c xs with
      | [] => [[x]]
      | p :: ps => (x :: p) :: ps

/-- JS `str.startsWith(pat)` on char lists. -/
def startsWithChars : List Char → List Char → Bool
  | _, [] => true
  | [], _ :: _ => false
  | x :: xs, p :: ps => (x = p) && startsWithChars xs ps

/-! ## The basic-auth admin gate (`basicAuth`, src/server.js lines 21–36) -/

/-- Fixed fallback admin credentials (`ADMIN_USER`, `ADMIN_PASS`). -/
def ADMIN_USER_default : String := "admin"
def ADMIN_PASS_default : String := "kdresort"

/-- Outcome of the `basicAuth` middleware. -/
inductive AuthResult where
  | unauthenticated    -- 401 "Authentication required"
  | invalidCredentials -- 401 "Invalid credentials"
  | proceed            -- next(): the request reaches the handler unchanged
deriving DecidableEq, Repr

/-- HTTP status written by the gate (`none` = it wrote no response and the
handler runs). -/
def authStatus : AuthResult → Option ℕ
  | .unauthenticated => some 401
  | .invalidCredentials => some 401
  | .proceed => none

/-- Whether the gate set the `WWW-Authenticate` challenge header
(the code sets it on both 401 branches). -/
def setsChallengeHeader : AuthResult → Bool
  | .unauthenticated => true
  | .invalidCredentials => true
  | .proceed => false

/-- The `(user, pass)` pair the gate destructures:
`const [user, pass] = decoded.split(":")`.  `pass` is `none` (JS
`undefined`) when the decoded credential has no colon. -/
def decodedUserPass (decoded : List Char) : List Char × Option (List Char) :=
  let parts := jsSplitChar ':' decoded
  (parts.headD [], parts.get? 1)

/-- The middleware `basicAuth(req,res,next)`.  `decodeBase64` stands for
`Buffer.from(base64, "base64").toString("utf8")` (an external library
call, never throwing); `authorizationHeader` is `req.headers.authorization`. -/
def basicAuth (adminUser adminPass : String)
    (decodeBase64 : List Char → List Char)
    (authorizationHeader : Option String) : AuthResult :=
  let header := (authorizationHeader.getD "").data
  if startsWithChars header "Basic ".data then
    let base64 := (jsSplitChar ' ' header).getD 1 []
    let decoded := decodeBase64 base64
    let up := decodedUserPass decoded
    if up.1 = adminUser.data ∧ up.2 = some adminPass.data then .proceed
    else .invalidCredentials
  else .unauthenticated

/-! ## Order placement (`POST /api/orders`, src/server.js lines 108–132) -/

/-- One entry of the request's `items` array, before normalization.
A field missing on the JS object is `jundef`. -/
structure RawOrderItem where
  name : JVal
  price : JVal
  qty : JVal
deriving DecidableEq, Repr

/-- An order line item after normalization. -/
structure CleanItem where
  name : String
  price : JSNum
  qty : JSNum
deriving DecidableEq, Repr

/-- Per-item normalization from the handler:
`{ name: String(it.name || "").trim(), price: Number(it.price || 0),
   qty: Number(it.qty || 1) }`. -/
def cleanItem (it : RawOrderItem) : CleanItem :=
  { name := jsTrim (jsToString (jsOr it.name (.jstr "")))
    price := jsToNumber (jsOr it.price (.jnum (.val 0)))
    qty := jsToNumber (jsOr it.qty (.jnum (.val 1))) }

/-- JS `qty > 0` (NaN > 0 is false in JS). -/
def qtyPositive : JSNum → Bool
  | .nan => false
  | .val q => decide (0 < q)

/-- The filter `(it) => it.name && it.qty > 0`. -/
def itemKept (it : CleanItem) : Bool :=
  it.name != "" && qtyPositive it.qty

/-- The pipeline `items.map(...).filter(...)` from the handler. -/
def cleanItems (xs : List RawOrderItem) : List CleanItem :=
  (xs.map cleanItem).filter itemKept

/-- The `items` field of a request body: a JS array of item objects, or any
non-array value (`Array.isArray` distinguishes the two). -/
inductive ItemsField where
  | arr (xs : List RawOrderItem)
  | notArr (v : JVal)
deriving Repr

def ItemsField.isArr : ItemsField → Bool
  | .arr _ => true
  | .notArr _ => false

def ItemsField.toList : ItemsField → List RawOrderItem
  | .arr xs => xs
  | .notArr _ => []

/-- Body of `POST /api/orders`: `{ table, items, customerNote }`
(absent fields are `jundef`). -/
structure PlaceRequest where
  table : JVal
  items : ItemsField
  customerNote : JVal

/-- An `Order` document (OrderSchema, src/server.js lines 49–57).
`id` models the generated `_id`; `createdAt`/`updatedAt` are the
mongoose timestamps. -/
structure OrderDoc where
  id : ℕ
  table : String
  items : List CleanItem
  customerNote : String
  status : String
  createdAt : ℕ
  updatedAt : ℕ
deriving DecidableEq, Repr

/-- Response of the place-order handler. -/
inductive PlaceResult where
  | validationError (message : String) -- res.status(400).json({error: message})
  | placed (orderId : ℕ)               -- res.json({ok: true, orderId})
deriving DecidableEq, Repr

def placeHttpStatus : PlaceResult → ℕ
  | .validationError _ => 400
  | .placed _ => 200

/-- The `POST /api/orders` handler.  `db` is the Order collection,
`freshId` the `_id` Mongo would generate, `now` the timestamp. -/
def placeOrder (db : List OrderDoc) (freshId now : ℕ) (req : PlaceRequest) :
    PlaceResult × List OrderDoc :=
  if !truthy req.table || !req.items.isArr || req.items.toList.length == 0 then
    (.validationError "table and items required", db)
  else if (cleanItems req.items.toList).length == 0 then
    (.validationError "invalid items", db)
  else
    (.placed freshId,
      db ++ [{ id := freshId
               table := jsToString req.table
               items := cleanItems req.items.toList
               customerNote := jsToString (jsOr req.customerNote (.jstr ""))
               status := "pending"        -- OrderSchema default
               createdAt := now
               updatedAt := now }])

/-! ## Order listing (`GET /api/orders`, src/server.js lines 102–105) -/

/-- The query `Order.find().sort({ createdAt: -1 }).limit(300)`. -/
def listOrders (db : List OrderDoc) : List OrderDoc :=
  (db.mergeSort (fun a b => decide (b.createdAt ≤ a.createdAt))).take 300

/-! ## Status update (`PATCH /api/orders/:id`, src/server.js lines 135–144) -/

/-- The list `allowed` of the PATCH handler: pending, preparing, ready, served, cancelled. -/
def allowedStatuses : List String :=
  ["pending", "preparing", "ready", "served", "cancelled"]

/-- Response of the status-update handler. -/
inductive UpdateResult where
  | validationError (message : String) -- res.status(400).json({error: message})
  | notFound (message : String)        -- res.status(404).json({error: message})
  | ok                                 -- res.json({ok: true}) — no order payload
deriving DecidableEq, Repr

def updateHttpStatus : UpdateResult → ℕ
  | .validationError _ => 400
  | .notFound _ => 404
  | .ok => 200

/-- The test `allowed.includes(status)` on the raw body field: `includes` uses
strict equality, so only an equal string passes. -/
def statusAllowed : JVal → Bool
  | .jstr s => allowedStatuses.contains s
  | _ => false

/-- The `PATCH /api/orders/:id` handler.  `status` is the raw body field
(`allowed.includes` matches only equal strings);
`Order.findByIdAndUpdate(id, { status })` mutates the matching order's
status, mongoose timestamps refresh `updatedAt`. -/
def updateStatus (db : List OrderDoc) (id : ℕ) (status : JVal) (now : ℕ) :
    UpdateResult × List OrderDoc :=
  match status with
  | .jstr s =>
    if allowedStatuses.contains s then
      if db.any (fun o => o.id == id) then
        (.ok, db.map fun o =>
          if o.id == id then { o with status := s, updatedAt := now } else o)
      else (.notFound "order not found", db)
    else (.validationError "invalid status", db)
  | _ => (.validationError "invalid status", db)

/-! ## Order deletion (`DELETE /api/orders/:id`, src/server.js lines 147–151) -/

/-- The `DELETE /api/orders/:id` handler (`Order.findByIdAndDelete`). -/
def deleteOrder (db : List OrderDoc) (id : ℕ) : UpdateResult × List OrderDoc :=
  if db.any (fun o => o.id == id) then
    (.ok, db.filter fun o => !(o.id == id))
  else (.notFound "order not found", db)

/-! ## Menu model and seeding (src/server.js lines 39–47, 84–99, 154–179) -/

/-- One entry of a seed request's `items` array, before normalization. -/
structure RawMenuItem where
  name : JVal
  price : JVal
  category : JVal
  isAvailable : JVal
deriving DecidableEq, Repr

/-- A `MenuItem` document (MenuItemSchema). -/
structure MenuDoc where
  name : String
  price : JSNum
  category : String
  isAvailable : Bool
deriving DecidableEq, Repr

/-- The normalization applied by both the seed-menu handler and
`autoSeedMenuIfEmpty`:
`{ name: String(x.name || "").trim(), price: Number(x.price || 0),
   category: String(x.category || "General").trim(),
   isAvailable: x.isAvailable === false ? false : true }`. -/
def normalizeMenuItem (x : RawMenuItem) : MenuDoc :=
  { name := jsTrim (jsToString (jsOr x.name (.jstr "")))
    price := jsToNumber (jsOr x.price (.jnum (.val 0)))
    category := jsTrim (jsToString (jsOr x.category (.jstr "General")))
    isAvailable := !(x.isAvailable == .jbool false) }

/-- The `items` field of a seed-menu request body. -/
inductive MenuItemsField where
  | arr (xs : List RawMenuItem)
  | notArr (v : JVal)
deriving Repr

def MenuItemsField.isArr : MenuItemsField → Bool
  | .arr _ => true
  | .notArr _ => false

def MenuItemsField.toList : MenuItemsField → List RawMenuItem
  | .arr xs => xs
  | .notArr _ => []

/-- Response of the seed-menu handler. -/
inductive SeedResult where
  | validationError (message : String) -- res.status(400).json({error: message})
  | okCount (count : ℕ)                -- res.json({ok: true, count})
deriving DecidableEq, Repr

def seedHttpStatus : SeedResult → ℕ
  | .validationError _ => 400
  | .okCount _ => 200

/-- The `POST /api/admin/seed-menu` handler (`replaceAll` in the spec):
validate, `MenuItem.deleteMany({})`, then `MenuItem.insertMany(items.map ...)`,
responding with `count: items.length`. -/
def seedMenu (menu : List MenuDoc) (items : MenuItemsField) :
    SeedResult × List MenuDoc :=
  if !items.isArr || items.toList.length == 0 then
    (.validationError "items required", menu)
  else
    (.okCount items.toList.length, items.toList.map normalizeMenuItem)

/-- What `fs.existsSync` + `fs.readFileSync` + `JSON.parse` of `menu.json`
can yield inside `autoSeedMenuIfEmpty` (read/parse failures are caught
by the surrounding `try`). -/
inductive SeedFile where
  | absent                          -- fs.existsSync is false
  | unreadableOrInvalid             -- read or JSON.parse throws (caught)
  | jsonArr (xs : List RawMenuItem) -- parses to an array
  | jsonOther (v : JVal)            -- parses to a non-array value
deriving Repr

/-- The startup step `autoSeedMenuIfEmpty` (src/server.js lines 154–179): no-op when the
collection already has documents; otherwise inserts the normalized file
contents when they form a non-empty array. -/
def autoSeedMenuIfEmpty (menu : List MenuDoc) (file : SeedFile) : List MenuDoc :=
  if menu.length > 0 then menu
  else
    match file with
    | .absent => menu
    | .unreadableOrInvalid => menu
    | .jsonOther _ => menu
    | .jsonArr xs =>
        if xs.length > 0 then xs.map normalizeMenuItem else menu

/-! ## Predicates on JS numbers and fixture values used by the theorems -/

/-- Whether a JS number is a non-negative value (NaN is not). -/
def jsNumNonneg : JSNum → Bool
  | .nan => false
  | .val q => decide (0 ≤ q)

/-- Whether a JS number is an integer value (NaN is not). -/
def jsNumIsInt : JSNum → Bool
  | .nan => false
  | .val q => decide (q.den = 1)

/-- The rational 5/2 (JS `2.5`), written with the raw constructor so the
kernel can evaluate comparisons on it without computing a gcd. -/
def twoPointFive : ℚ := ⟨5, 2, by norm_num, by norm_num⟩

/-- The request item `{name: "Tea", price: -5, qty: 2.5}`. -/
def negativeFractionalItem : RawOrderItem :=
  { name := .jstr "Tea", price := .jnum (.val (-5)),
    qty := .jnum (.val twoPointFive) }

/-- A stored pending order, used as a concrete input. -/
def pendingOrderC3 : OrderDoc :=
  { id := 1, table := "5", items := [], customerNote := "",
    status := "pending", createdAt := 0, updatedAt := 0 }

/-- The same order after `updateStatus(1, "ready")` at time 9. -/
def readyOrderC3 : OrderDoc :=
  { id := 1, table := "5", items := [], customerNote := "",
    status := "ready", createdAt := 0, updatedAt := 9 }

/-- A stored menu document, used as a concrete input. -/
def teaMenuDocC5 : MenuDoc :=
  { name := "Tea", price := .val 3, category := "General",
    isAvailable := true }

/-! ## The order-mutating operations of the system, as one step type -/

/-- An order-collection mutating operation of the server: placing an order,
updating a status, or deleting an order. -/
inductive Op where
  | placeOp (freshId now : ℕ) (req : PlaceRequest)
  | updateOp (id : ℕ) (status : JVal) (now : ℕ)
  | deleteOp (id : ℕ)

/-- The effect of one operation on the Order collection. -/
def applyOp (db : List OrderDoc) : Op → List OrderDoc
  | .placeOp freshId now req => (placeOrder db freshId now req).2
  | .updateOp id status now => (updateStatus db id status now).2
  | .deleteOp id => (deleteOrder db id).2

/-- The Order collection reached by running a sequence of operations from
the empty collection. -/
def runOps (ops : List Op) : List OrderDoc :=
  ops.foldl applyOp []

/-! ## Helper lemmas -/

/-- The function `jsSplitChar` never returns the empty list of pieces. -/
theorem jsSplitChar_ne_nil (c : Char) : ∀ (l : List Char), jsSplitChar c l ≠ []
  | [] => by simp [jsSplitChar]
  | x :: xs => by
    simp only [jsSplitChar]
    split
    · simp
    · split <;> simp

/-- No piece produced by `jsSplitChar c` contains the separator `c`. -/
theorem not_mem_of_mem_jsSplitChar (c : Char) :
    ∀ (l : List Char), ∀ piece ∈ jsSplitChar c l, c ∉ piece := by
  intro l
  induction l with
  | nil =>
    intro piece h
    simp [jsSplitChar] at h
    subst h; simp
  | cons x xs ih =>
    intro piece h
    simp only [jsSplitChar] at h
    by_cases hx : x = c
    · rw [if_pos hx] at h
      rcases List.mem_cons.mp h with h1 | h2
      · subst h1; simp
      · exact ih piece h2
    · rw [if_neg hx] at h
      cases hrec : jsSplitChar c xs with
      | nil => exact absurd hrec (jsSplitChar_ne_nil c xs)
      | cons p ps =>
        rw [hrec] at h
        rcases List.mem_cons.mp h with h1 | h2
        · subst h1
          intro hmem
          rcases List.mem_cons.mp hmem with h3 | h4
          · exact hx h3.symm
          · exact ih p (by rw [hrec]; exact List.mem_cons_self p ps) h4
        · exact ih piece (by rw [hrec]; exact List.mem_cons_of_mem p h2)

/-- Unfolding equation for `basicAuth`. -/
theorem basicAuth_eq (u p : String) (dec : List Char → List Char)
    (hdr : Option String) :
    basicAuth u p dec hdr =
      (if startsWithChars (hdr.getD "").data "Basic ".data then
        (if (decodedUserPass (dec ((jsSplitChar ' ' (hdr.getD "").data).getD 1 []))).1 = u.data
            ∧ (decodedUserPass (dec ((jsSplitChar ' ' (hdr.getD "").data).getD 1 []))).2 = some p.data
         then .proceed else .invalidCredentials)
       else .unauthenticated) := rfl

/-- The password position extracted by the gate is a piece of the colon-split
credential, hence never contains a colon. -/
theorem decodedUserPass_snd_no_colon (decoded : List Char) (x : List Char)
    (h : (decodedUserPass decoded).2 = some x) : ':' ∉ x := by
  have hx : x ∈ jsSplitChar ':' decoded := List.get?_mem h
  exact not_mem_of_mem_jsSplitChar ':' decoded x hx

/-! ## Claim C1: behaviour of the admin gate -/

/-- C1: for every request to an admin-gated route, `basicAuth` behaves as
follows: if the authorization header is absent or does not begin with the
`"Basic "` scheme marker, the response is 401 and carries the
`WWW-Authenticate` challenge header; if the header is present but the
decoded username/password pair (the `[user, pass]` the gate destructures
from the colon-split decoded credential) does not match the configured
admin pair, the response is 401; if the pair matches, the request proceeds
to the handler unchanged. -/
theorem basicAuth_gate_behavior (u p : String) (dec : List Char → List Char)
    (hdr : Option String) :
    (startsWithChars (hdr.getD "").data "Basic ".data = false →
      basicAuth u p dec hdr = .unauthenticated ∧
      authStatus (basicAuth u p dec hdr) = some 401 ∧
      setsChallengeHeader (basicAuth u p dec hdr) = true) ∧
    (startsWithChars (hdr.getD "").data "Basic ".data = true →
      (decodedUserPass (dec ((jsSplitChar ' ' (hdr.getD "").data).getD 1 []))
          ≠ (u.data, some p.data) →
        basicAuth u p dec hdr = .invalidCredentials ∧
        authStatus (basicAuth u p dec hdr) = some 401) ∧
      (decodedUserPass (dec ((jsSplitChar ' ' (hdr.getD "").data).getD 1 []))
          = (u.data, some p.data) →
        basicAuth u p dec hdr = .proceed)) := by
  rw [basicAuth_eq]
  constructor
  · intro hs
    rw [if_neg (by simp [hs])]
    exact ⟨rfl, rfl, rfl⟩
  · intro hs
    rw [if_pos hs]
    constructor
    · intro hne
      rw [if_neg]
      · exact ⟨rfl, rfl⟩
      · intro hpair
        exact hne (Prod.ext hpair.1 hpair.2)
    · intro heq
      rw [if_pos ⟨by rw [heq], by rw [heq]⟩]

/-- Witness for C1: with default credentials, no header at all yields the
401 challenge. -/
theorem basicAuth_gate_behavior_witness :
    basicAuth "admin" "kdresort" (fun _ => "admin:kdresort".data) none
      = .unauthenticated :=
  ((basicAuth_gate_behavior "admin" "kdresort"
      (fun _ => "admin:kdresort".data) none).1 (by decide)).1

/-! ## Claim C10: a configured password containing a colon locks admin out -/

/-- C10: if the configured admin password contains a `':'`, then every
request — whatever its header and whatever the decoded credential, even the
exact `"username:password"` string — is answered 401 and never proceeds:
the gate splits the decoded credential on every colon and compares only the
segment between the first and second colon as the password, and no split
segment can contain a colon. -/
theorem basicAuth_colon_password_locks_out (u p : String)
    (dec : List Char → List Char) (hdr : Option String)
    (hc : ':' ∈ p.data) :
    authStatus (basicAuth u p dec hdr) = some 401 ∧
    basicAuth u p dec hdr ≠ .proceed := by
  rw [basicAuth_eq]
  split
  · rw [if_neg]
    · exact ⟨rfl, by simp⟩
    · intro hpair
      exact decodedUserPass_snd_no_colon _ _ hpair.2 hc
  · exact ⟨rfl, by simp⟩

/-- Witness for C10: password `"kd:resort"`; the decoded credential is the
exact configured `"admin:kd:resort"` string, yet the gate rejects it. -/
theorem basicAuth_colon_password_locks_out_witness :
    authStatus (basicAuth "admin" "kd:resort"
        (fun _ => "admin:kd:resort".data) (some "Basic eA==")) = some 401 ∧
    basicAuth "admin" "kd:resort"
        (fun _ => "admin:kd:resort".data) (some "Basic eA==") ≠ .proceed :=
  basicAuth_colon_password_locks_out "admin" "kd:resort"
    (fun _ => "admin:kd:resort".data) (some "Basic eA==") (by decide)

/-! ## Claim C2: validation in the place-order handler -/

/-- C2: a `POST /api/orders` request with a falsy `table` (absent/empty),
or whose `items` is not a non-empty array, is answered with a 400
validation error and the collection is untouched; otherwise the items are
normalized and filtered (an item with empty name or non-positive quantity
is dropped), and if the filtered list is empty the request is likewise
answered 400 with the collection untouched. -/
theorem placeOrder_validation (db : List OrderDoc) (freshId now : ℕ)
    (req : PlaceRequest) :
    ((truthy req.table = false ∨ req.items.isArr = false ∨
        req.items.toList = []) →
      placeOrder db freshId now req
        = (.validationError "table and items required", db) ∧
      placeHttpStatus (placeOrder db freshId now req).1 = 400) ∧
    (truthy req.table = true → req.items.isArr = true →
      req.items.toList ≠ [] → cleanItems req.items.toList = [] →
      placeOrder db freshId now req = (.validationError "invalid items", db) ∧
      placeHttpStatus (placeOrder db freshId now req).1 = 400) ∧
    (∀ it : CleanItem,
      (it.name = "" ∨ (∃ q : ℚ, it.qty = .val q ∧ q ≤ 0)) →
      itemKept it = false) := by
  refine ⟨?_, ?_, ?_⟩
  · intro h
    have hcond : (!truthy req.table || !req.items.isArr ||
        req.items.toList.length == 0) = true := by
      rcases h with h | h | h <;> simp [h]
    rw [placeOrder, if_pos hcond]
    exact ⟨rfl, rfl⟩
  · intro ht ha hne hclean
    have hcond : (!truthy req.table || !req.items.isArr ||
        req.items.toList.length == 0) = false := by
      simp [ht, ha, hne]
    rw [placeOrder, if_neg (by simp [hcond]), if_pos (by simp [hclean])]
    exact ⟨rfl, rfl⟩
  · intro it h
    rcases h with h | ⟨q, hq, hle⟩
    · simp [itemKept, h]
    · simp [itemKept, qtyPositive, hq, not_lt.mpr hle]

/-- Witness for C2: an empty table string is rejected with 400. -/
theorem placeOrder_validation_witness :
    placeOrder [] 1 0
        { table := .jstr "", items := .arr [{ name := .jstr "Tea", price := .jnum (.val 3), qty := .jnum (.val 1) }], customerNote := .jundef }
      = (.validationError "table and items required", []) :=
  ((placeOrder_validation [] 1 0
      { table := .jstr "", items := .arr [{ name := .jstr "Tea", price := .jnum (.val 3), qty := .jnum (.val 1) }], customerNote := .jundef }).1
    (Or.inl (by decide))).1

/-! ## Claim C6: a successful place creates a pending order -/

/-- C6: for every place request that passes validation (truthy table,
non-empty items array, at least one item surviving the filter), the handler
appends exactly one Order whose status is `"pending"` and whose items are
exactly the normalized filtered item set, and it returns that order's
identifier to the caller. -/
theorem placeOrder_success (db : List OrderDoc) (freshId now : ℕ)
    (req : PlaceRequest)
    (ht : truthy req.table = true) (ha : req.items.isArr = true)
    (hne : req.items.toList ≠ []) (hclean : cleanItems req.items.toList ≠ []) :
    (placeOrder db freshId now req).1 = .placed freshId ∧
    (placeOrder db freshId now req).2 =
      db ++ [{ id := freshId
               table := jsToString req.table
               items := cleanItems req.items.toList
               customerNote := jsToString (jsOr req.customerNote (.jstr ""))
               status := "pending"
               createdAt := now
               updatedAt := now }] := by
  have hcond : (!truthy req.table || !req.items.isArr ||
      req.items.toList.length == 0) = false := by
    simp [ht, ha, hne]
  rw [placeOrder, if_neg (by simp [hcond]), if_neg (by simp [hclean])]
  exact ⟨rfl, rfl⟩

/-- Witness for C6: one valid line item yields a pending order holding
exactly its normalization. -/
theorem placeOrder_success_witness :
    (placeOrder [] 7 5
        { table := .jstr "5", items := .arr [{ name := .jstr " Tea ", price := .jnum (.val 3), qty := .jundef }], customerNote := .jundef }).1
      = .placed 7 ∧
    (placeOrder [] 7 5
        { table := .jstr "5", items := .arr [{ name := .jstr " Tea ", price := .jnum (.val 3), qty := .jundef }], customerNote := .jundef }).2
      = [] ++ [{ id := 7, table := "5", items := [{ name := "Tea", price := .val 3, qty := .val 1 }],
                 customerNote := "", status := "pending", createdAt := 5, updatedAt := 5 }] := by
  have h := placeOrder_success [] 7 5
    { table := .jstr "5", items := .arr [{ name := .jstr " Tea ", price := .jnum (.val 3), qty := .jundef }], customerNote := .jundef }
    (by decide) (by decide) (by decide) (by decide)
  exact ⟨h.1, by rw [h.2]; decide⟩

/-! ## Claim C4: per-item normalization (corrected) -/

/-- Counterexample to C4 as stated: the item
`{name: "Tea", price: -5, qty: 2.5}` is normalized with a negative price
(the handler never clamps to ≥ 0) and a non-integer quantity (the handler
never rounds), contradicting the claimed "price ≥ 0" and
"quantity … integer". -/
theorem cleanItem_keeps_negative_price_and_fractional_qty :
    cleanItem negativeFractionalItem
      = { name := "Tea", price := .val (-5), qty := .val twoPointFive } ∧
    jsNumNonneg (cleanItem negativeFractionalItem).price = false ∧
    jsNumIsInt (cleanItem negativeFractionalItem).qty = false :=
  ⟨by decide, by decide, by decide⟩

/-- C4 amended: normalization yields a name equal to the trimmed string
coercion of the given name (empty when the name is absent), a price equal
to the JS number coercion of the given price with 0 substituted when the
price is absent or falsy (the result may be negative, fractional or NaN),
and a quantity equal to the JS number coercion of the given quantity with 1
substituted when the quantity is absent or falsy (the result need not be an
integer); in particular a non-zero numeric price or quantity passes through
unchanged. -/
theorem cleanItem_normalization (it : RawOrderItem) :
    (cleanItem it).name = jsTrim (jsToString (jsOr it.name (.jstr ""))) ∧
    (cleanItem it).price = jsToNumber (jsOr it.price (.jnum (.val 0))) ∧
    (cleanItem it).qty = jsToNumber (jsOr it.qty (.jnum (.val 1))) ∧
    (it.name = .jundef → (cleanItem it).name = "") ∧
    (it.price = .jundef → (cleanItem it).price = .val 0) ∧
    (it.qty = .jundef → (cleanItem it).qty = .val 1) ∧
    (∀ q : ℚ, it.price = .jnum (.val q) → (cleanItem it).price = .val q) ∧
    (∀ q : ℚ, q ≠ 0 → it.qty = .jnum (.val q) → (cleanItem it).qty = .val q) := by
  refine ⟨rfl, rfl, rfl, ?_, ?_, ?_, ?_, ?_⟩
  · intro h; simp [cleanItem, h, jsOr, truthy, jsToString, jsTrim, trimChars]
  · intro h; simp [cleanItem, h, jsOr, truthy, jsToNumber]
  · intro h; simp [cleanItem, h, jsOr, truthy, jsToNumber]
  · intro q h
    by_cases hq : q = 0
    · subst hq; simp [cleanItem, h, jsOr, truthy, jsToNumber]
    · simp [cleanItem, h, jsOr, truthy, jsToNumber, hq]
  · intro q hq h
    simp [cleanItem, h, jsOr, truthy, jsToNumber, hq]

/-- Witness for C4 (amended): an item with all fields absent normalizes to
the defaults `("", 0, 1)`. -/
theorem cleanItem_normalization_witness :
    cleanItem { name := .jundef, price := .jundef, qty := .jundef }
      = { name := "", price := .val 0, qty := .val 1 } := by
  have h := cleanItem_normalization
    { name := .jundef, price := .jundef, qty := .jundef }
  obtain ⟨-, -, -, h4, h5, h6, -, -⟩ := h
  have e4 := h4 rfl
  have e5 := h5 rfl
  have e6 := h6 rfl
  cases hc : cleanItem { name := .jundef, price := .jundef, qty := .jundef }
  rw [hc] at e4 e5 e6
  simp only at e4 e5 e6
  rw [e4, e5, e6]

/-! ## Claim C3: status update -/

/-- C3: `PATCH /api/orders/:id` answers 400 when the supplied status is not
one of the five enumerated strings (collection untouched); otherwise 404
when no order has the id (collection untouched); otherwise it mutates the
matching order's status and updated-timestamp and answers with a bare
acknowledgement (`UpdateResult.ok` carries no order payload). -/
theorem updateStatus_spec (db : List OrderDoc) (id : ℕ) (status : JVal)
    (now : ℕ) :
    (statusAllowed status = false →
      updateStatus db id status now = (.validationError "invalid status", db) ∧
      updateHttpStatus (updateStatus db id status now).1 = 400) ∧
    (∀ s : String, status = .jstr s → allowedStatuses.contains s = true →
      (db.any (fun o => o.id == id) = false →
        updateStatus db id status now = (.notFound "order not found", db) ∧
        updateHttpStatus (updateStatus db id status now).1 = 404) ∧
      (db.any (fun o => o.id == id) = true →
        (updateStatus db id status now).1 = .ok ∧
        (updateStatus db id status now).2 =
          db.map fun o =>
            if o.id == id then { o with status := s, updatedAt := now }
            else o)) := by
  constructor
  · intro h
    cases status with
    | jstr s =>
        have hc : s ∉ allowedStatuses := by simpa [statusAllowed] using h
        simp [updateStatus, updateHttpStatus, hc]
    | jundef => exact ⟨rfl, rfl⟩
    | jnull => exact ⟨rfl, rfl⟩
    | jbool b => exact ⟨rfl, rfl⟩
    | jnum n => exact ⟨rfl, rfl⟩
  · intro s hst hc
    subst hst
    have hc' : s ∈ allowedStatuses := by simpa using hc
    constructor
    · intro hnone
      have hn : ¬ ∃ x ∈ db, x.id = id := by simpa using hnone
      simp [updateStatus, updateHttpStatus, hc', hn]
    · intro hsome
      have hs : ∃ x ∈ db, x.id = id := by simpa using hsome
      simp [updateStatus, hc', hs]

/-- Witness for C3: updating the one stored order to `"ready"` succeeds and
rewrites its status and timestamp. -/
theorem updateStatus_spec_witness :
    (updateStatus [pendingOrderC3] 1 (.jstr "ready") 9).1 = .ok ∧
    (updateStatus [pendingOrderC3] 1 (.jstr "ready") 9).2
      = [readyOrderC3] := by
  have h := ((updateStatus_spec [pendingOrderC3] 1
      (.jstr "ready") 9).2 "ready" rfl (by decide)).2 (by decide)
  exact ⟨h.1, by rw [h.2]; decide⟩

/-! ## Claim C5: destructive menu replacement -/

/-- C5: `POST /api/admin/seed-menu` answers 400 and leaves the menu
collection unchanged when `items` is not a non-empty array; otherwise the
whole collection is replaced by the normalized input items and the reported
count equals the number of items inserted. -/
theorem seedMenu_spec (menu : List MenuDoc) (items : MenuItemsField) :
    ((items.isArr = false ∨ items.toList = []) →
      seedMenu menu items = (.validationError "items required", menu) ∧
      seedHttpStatus (seedMenu menu items).1 = 400) ∧
    (items.isArr = true → items.toList ≠ [] →
      seedMenu menu items
        = (.okCount items.toList.length, items.toList.map normalizeMenuItem) ∧
      (seedMenu menu items).2.length = items.toList.length) := by
  constructor
  · intro h
    have hcond : (!items.isArr || items.toList.length == 0) = true := by
      rcases h with h | h <;> simp [h]
    rw [seedMenu, if_pos hcond]
    exact ⟨rfl, rfl⟩
  · intro ha hne
    have hcond : (!items.isArr || items.toList.length == 0) = false := by
      simp [ha, hne]
    rw [seedMenu, if_neg (by simp [hcond])]
    exact ⟨rfl, by simp⟩

/-- Witness for C5: a non-array `items` is rejected and the stored menu
survives. -/
theorem seedMenu_spec_witness :
    seedMenu [teaMenuDocC5] (.notArr .jnull)
      = (.validationError "items required", [teaMenuDocC5]) :=
  ((seedMenu_spec [teaMenuDocC5] (.notArr .jnull)).1 (Or.inl (by decide))).1

/-! ## Claim C7: the status invariant -/

theorem placeOrder_preserves_status (db : List OrderDoc) (freshId now : ℕ)
    (req : PlaceRequest)
    (h : ∀ o ∈ db, o.status ∈ allowedStatuses) :
    ∀ o ∈ (placeOrder db freshId now req).2, o.status ∈ allowedStatuses := by
  intro o ho
  rw [placeOrder] at ho
  split at ho
  · exact h o ho
  · split at ho
    · exact h o ho
    · rcases List.mem_append.mp ho with hdb | hnew
      · exact h o hdb
      · rcases List.mem_singleton.mp hnew with rfl
        simp [allowedStatuses]

theorem updateStatus_preserves_status (db : List OrderDoc) (id : ℕ)
    (status : JVal) (now : ℕ)
    (h : ∀ o ∈ db, o.status ∈ allowedStatuses) :
    ∀ o ∈ (updateStatus db id status now).2, o.status ∈ allowedStatuses := by
  intro o ho
  cases status with
  | jstr s =>
    rw [updateStatus] at ho
    split at ho
    case isTrue hc =>
      split at ho
      case isTrue =>
        rcases List.mem_map.mp ho with ⟨o', ho', rfl⟩
        by_cases hid : (o'.id == id) = true
        · rw [if_pos hid]
          simpa using hc
        · rw [if_neg hid]
          exact h o' ho'
      case isFalse => exact h o ho
    case isFalse => exact h o ho
  | jundef => exact h o ho
  | jnull => exact h o ho
  | jbool b => exact h o ho
  | jnum n => exact h o ho

theorem deleteOrder_preserves_status (db : List OrderDoc) (id : ℕ)
    (h : ∀ o ∈ db, o.status ∈ allowedStatuses) :
    ∀ o ∈ (deleteOrder db id).2, o.status ∈ allowedStatuses := by
  intro o ho
  rw [deleteOrder] at ho
  split at ho
  · exact h o (List.mem_of_mem_filter ho)
  · exact h o ho

theorem applyOp_preserves_status (db : List OrderDoc) (op : Op)
    (h : ∀ o ∈ db, o.status ∈ allowedStatuses) :
    ∀ o ∈ applyOp db op, o.status ∈ allowedStatuses := by
  cases op with
  | placeOp f n r => exact placeOrder_preserves_status db f n r h
  | updateOp i s n => exact updateStatus_preserves_status db i s n h
  | deleteOp i => exact deleteOrder_preserves_status db i h

theorem foldl_applyOp_preserves_status (ops : List Op) :
    ∀ (db : List OrderDoc), (∀ o ∈ db, o.status ∈ allowedStatuses) →
    ∀ o ∈ ops.foldl applyOp db, o.status ∈ allowedStatuses := by
  induction ops with
  | nil => intro db h; simpa using h
  | cons op rest ih =>
      intro db h
      exact ih (applyOp db op) (applyOp_preserves_status db op h)

/-- C7: in every Order collection reachable from empty through the server's
operations (place, update-status, delete), every order's status is one of
the five enumerated strings: place always writes `"pending"` and
update-status only ever writes a member of the allowed list. -/
theorem status_invariant (ops : List Op) (o : OrderDoc)
    (ho : o ∈ runOps ops) : o.status ∈ allowedStatuses :=
  foldl_applyOp_preserves_status ops [] (by simp) o ho

/-- Witness for C7: the order created by one concrete place operation has
an allowed status. -/
theorem status_invariant_witness :
    ({ id := 3, table := "5", items := [{ name := "Tea", price := .val 3, qty := .val 1 }], customerNote := "", status := "pending", createdAt := 2, updatedAt := 2 } : OrderDoc).status
      ∈ allowedStatuses :=
  status_invariant
    [.placeOp 3 2 { table := .jstr "5", items := .arr [{ name := .jstr "Tea", price := .jnum (.val 3), qty := .jnum (.val 1) }], customerNote := .jundef }]
    { id := 3, table := "5", items := [{ name := "Tea", price := .val 3, qty := .val 1 }], customerNote := "", status := "pending", createdAt := 2, updatedAt := 2 }
    (by decide)

/-! ## Claim C8: order listing -/

/-- C8: `GET /api/orders` returns the stored orders sorted by creation time
descending, capped at 300: the result is pairwise non-increasing in
`createdAt`, has at most 300 entries, only contains stored orders, and is a
permutation of the whole collection whenever it holds at most 300 orders. -/
theorem listOrders_spec (db : List OrderDoc) :
    (listOrders db).Pairwise (fun a b => b.createdAt ≤ a.createdAt) ∧
    (listOrders db).length ≤ 300 ∧
    (∀ o ∈ listOrders db, o ∈ db) ∧
    (db.length ≤ 300 → (listOrders db).Perm db) := by
  have hperm := List.mergeSort_perm db
    (fun a b => decide (b.createdAt ≤ a.createdAt))
  have hs := @List.sorted_mergeSort OrderDoc
    (fun a b : OrderDoc => decide (b.createdAt ≤ a.createdAt))
    (fun a b c hab hbc => by simp at hab hbc ⊢; omega)
    (fun a b => by simp [Nat.le_total]) db
  refine ⟨?_, ?_, ?_, ?_⟩
  · have hp := List.Pairwise.sublist (List.take_sublist 300 _) hs
    exact hp.imp (by simp)
  · exact List.length_take_le 300 _
  · intro o ho
    exact hperm.subset (List.mem_of_mem_take ho)
  · intro hlen
    have hlen' : (db.mergeSort
        (fun a b => decide (b.createdAt ≤ a.createdAt))).length ≤ 300 := by
      rw [hperm.length_eq]; exact hlen
    rw [listOrders, List.take_of_length_le hlen']
    exact hperm

/-- Witness for C8: listing two stored orders returns both. -/
theorem listOrders_spec_witness :
    (listOrders [{ id := 1, table := "1", items := [], customerNote := "", status := "pending", createdAt := 1, updatedAt := 1 }, { id := 2, table := "2", items := [], customerNote := "", status := "pending", createdAt := 4, updatedAt := 4 }]).Perm
      [{ id := 1, table := "1", items := [], customerNote := "", status := "pending", createdAt := 1, updatedAt := 1 }, { id := 2, table := "2", items := [], customerNote := "", status := "pending", createdAt := 4, updatedAt := 4 }] :=
  (listOrders_spec
    [{ id := 1, table := "1", items := [], customerNote := "", status := "pending", createdAt := 1, updatedAt := 1 }, { id := 2, table := "2", items := [], customerNote := "", status := "pending", createdAt := 4, updatedAt := 4 }]).2.2.2
    (by decide)

/-! ## Claim C9: bootstrap seeding is idempotent and non-destructive -/

/-- C9: when the MenuItem collection is non-empty, the bootstrap seeding
step leaves it unchanged; and running the seeding step twice (startup
twice) always gives the same collection as running it once — it never
duplicates or clears items. -/
theorem autoSeedMenuIfEmpty_spec (menu : List MenuDoc) (file : SeedFile) :
    (menu ≠ [] → autoSeedMenuIfEmpty menu file = menu) ∧
    autoSeedMenuIfEmpty (autoSeedMenuIfEmpty menu file) file
      = autoSeedMenuIfEmpty menu file := by
  have hne : ∀ (m : List MenuDoc), m ≠ [] → autoSeedMenuIfEmpty m file = m := by
    intro m hm
    have hpos : 0 < m.length := List.length_pos.mpr hm
    rw [autoSeedMenuIfEmpty.eq_def, if_pos hpos]
  refine ⟨hne menu, ?_⟩
  by_cases h : menu = []
  · subst h
    cases file with
    | absent => rfl
    | unreadableOrInvalid => rfl
    | jsonOther v => rfl
    | jsonArr xs =>
      by_cases hx : xs = []
      · subst hx; rfl
      · have hres : autoSeedMenuIfEmpty [] (.jsonArr xs)
            = xs.map normalizeMenuItem := by
          rw [autoSeedMenuIfEmpty.eq_def, if_neg (by simp)]
          exact if_pos (List.length_pos.mpr hx)
        rw [hres]
        exact hne _ (by simpa using hx)
  · rw [hne menu h, hne menu h]

/-- Witness for C9: a one-item collection survives seeding untouched. -/
theorem autoSeedMenuIfEmpty_spec_witness :
    autoSeedMenuIfEmpty
        [{ name := "Tea", price := .val 3, category := "General", isAvailable := true }] .absent
      = [{ name := "Tea", price := .val 3, category := "General", isAvailable := true }] :=
  (autoSeedMenuIfEmpty_spec
    [{ name := "Tea", price := .val 3, category := "General", isAvailable := true }] .absent).1
    (by decide)

end QrOrder
